import Mathlib

/-!
Verification of the wooostock RSS-to-publisher pipeline (`rss_article.py`,
`scrape.py`) against its natural-language specification.

The embedding translates the Python source shallowly:

* External libraries (`requests`, `lxml`, `json`, `hashlib`, the clock) are
  modelled as oracle functions gathered in an `Env` record, one oracle per
  call site kind.  `requests.get`/`post` return an `Except PyErr Response`
  (an exception or a response), matching the Python calls which either raise
  or return.
* The HTML body tree handed to the normalizer is an explicit tree type
  `HNode`; inter-element text ("tails" in lxml) is represented as text
  children of the parent, and an element's lxml `tail` is recovered as the
  run of text nodes directly following it.
* Effects (HTTP gets, the form post, appends to the posted-id file) are
  returned as an explicit event trace, so ordering claims ("the store is
  written only after the remote call") become statements about traces.
* Machine-level details that no claim touches (exact MD5 bytes, real clock)
  stay abstract: `md5` and `now` are parameters.
-/

namespace Woo

/-- Python exceptions that the translated code can raise or receive from the
modelled libraries. -/
inductive PyErr where
  /-- `requests.HTTPError` raised by `Response.raise_for_status()`. -/
  | httpError (status : Nat)
  /-- `TypeError`, e.g. `t.set('src', None)` in `clean_img_html`. -/
  | typeError (msg : String)
  /-- `AttributeError`, e.g. `.get` on a non-dict JSON value. -/
  | attributeError (msg : String)
  /-- `ValueError`/`ParserError`-like failures (bad JSON, bad HTML). -/
  | valueError (msg : String)
  /-- `lxml.etree.XMLSyntaxError`, e.g. `etree.fromstring` on a serialized
  element followed by non-whitespace tail text. -/
  | xmlError (msg : String)
  /-- `requests` connection/timeout errors. -/
  | requestError (msg : String)
deriving DecidableEq

/-- The string used when an exception is recorded in the failure list
(`str(e)` in `process_rss`). -/
def PyErr.message : PyErr → String
  | .httpError s => "HTTPError " ++ toString s
  | .typeError m => "TypeError: " ++ m
  | .attributeError m => "AttributeError: " ++ m
  | .valueError m => "ValueError: " ++ m
  | .xmlError m => "XMLSyntaxError: " ++ m
  | .requestError m => "RequestException: " ++ m

/-- The parts of a `requests` response that the source consults:
`status_code`, `text`, the `content-type` header and the raw `content`
bytes. -/
structure Response where
  status_code : Nat
  text : String
  headersContentType : Option String
  content : List Nat
deriving DecidableEq

/-- `requests.Response.raise_for_status()` raises exactly for
4xx and 5xx status codes. -/
def raisesForStatus (s : Nat) : Prop := 400 ≤ s ∧ s < 600

instance (s : Nat) : Decidable (raisesForStatus s) := by
  unfold raisesForStatus; infer_instance

/-- Python truthiness of a value that is either `None` or a `str`
(`none` ↦ `None`, `some s` ↦ the string `s`). -/
def pyTruthy : Option String → Bool
  | none => false
  | some s => s ≠ ""

/-- Python `a or b` over `None`-or-`str` values. -/
def pyOr (a b : Option String) : Option String :=
  if pyTruthy a then a else b

/-- ASCII model of Python's `\s` / `str.strip()` whitespace. -/
def isPySpace (c : Char) : Bool :=
  c = ' ' || c = '\t' || c = '\n' || c = '\r' || c = '\x0b' || c = '\x0c'

/-- Python `str.strip()` (whitespace on both ends). -/
def pyStrip (s : String) : String :=
  ⟨((s.toList.dropWhile isPySpace).reverse.dropWhile isPySpace).reverse⟩

/-- Python `str.rstrip()` (trailing whitespace). -/
def rstripWs (s : String) : String :=
  ⟨(s.toList.reverse.dropWhile isPySpace).reverse⟩

/-- Python `str.rstrip(';')` (trailing semicolons). -/
def rstripSemis (s : String) : String :=
  ⟨(s.toList.reverse.dropWhile (fun c => c == ';')).reverse⟩

/-- `s.all (it is whitespace)`; the empty string counts. -/
def isWsOnly (s : String) : Bool := s.toList.all isPySpace

/-- Does `pat` occur at the head of `l`? -/
def leadMatch : List Char → List Char → Bool
  | [], _ => true
  | _ :: _, [] => false
  | p :: ps, c :: cs => p == c && leadMatch ps cs

/-- Does `pat` occur anywhere in `l` (Python `pat in s`)? -/
def containsSub (pat : List Char) : List Char → Bool
  | [] => pat.isEmpty
  | c :: cs => leadMatch pat (c :: cs) || containsSub pat cs

/-- Split `hay` at the first occurrence of `pat`, returning the part before
and the part after the occurrence. -/
def splitAtSub (pat : List Char) : List Char → Option (List Char × List Char)
  | [] => if pat.isEmpty then some ([], []) else none
  | c :: cs =>
    if leadMatch pat (c :: cs) then some ([], (c :: cs).drop pat.length)
    else (splitAtSub pat cs).map (fun pr => (c :: pr.1, pr.2))

/-- Python `str.replace(old, new, 1)`: replace the first occurrence only. -/
def replaceFirst (s pat rep : String) : String :=
  match splitAtSub pat.toList s.toList with
  | some (before, after) => ⟨before⟩ ++ rep ++ ⟨after⟩
  | none => s

/-! ### `SEP_RX` and `split_kw` (source lines 58-61)

`SEP_RX = re.compile(r'[,，、]\s*')`; `split_kw` splits on it, strips each
piece and drops the empty ones. -/

/-- One of the separator characters of `SEP_RX`. -/
def sepChar (c : Char) : Bool := c == ',' || c == '，' || c == '、'

/-- `re.split(SEP_RX, s)` on the character list: each separator character
consumes the following whitespace run; pieces between matches are kept
(including empty ones, as `re.split` does).  The fuel only bounds the scan
— every step consumes at least one character, so `length` fuel never runs
out. -/
def splitSepRxGo : Nat → List Char → List (List Char)
  | 0, _ => [[]]
  | _ + 1, [] => [[]]
  | fuel + 1, c :: cs =>
    if sepChar c then [] :: splitSepRxGo fuel (cs.dropWhile isPySpace)
    else
      match splitSepRxGo fuel cs with
      | t :: ts => (c :: t) :: ts
      | [] => [[c]]

/-- `re.split(SEP_RX, s)`. -/
def splitSepRx (l : List Char) : List (List Char) := splitSepRxGo l.length l

/-- `split_kw(s)` = `[k.strip() for k in SEP_RX.split(s) if k.strip()]`. -/
def split_kw (s : String) : List String :=
  ((splitSepRx s.toList).map (fun l => pyStrip ⟨l⟩)).filter (fun k => k ≠ "")

/-- Python `str.replace(old, new)` — every non-overlapping occurrence, left
to right (fuel-bounded scan; `length` fuel suffices). -/
def replAllGo (pat rep : List Char) : Nat → List Char → List Char
  | 0, cs => cs
  | _ + 1, [] => []
  | fuel + 1, c :: cs =>
    if pat.isEmpty = false && leadMatch pat (c :: cs) then
      rep ++ replAllGo pat rep fuel ((c :: cs).drop pat.length)
    else c :: replAllGo pat rep fuel cs

/-- Python `str.replace(old, new)` for a non-empty `old`. -/
def pyReplaceAll (s pat rep : String) : String :=
  ⟨replAllGo pat.toList rep.toList s.toList.length s.toList⟩

/-- Python `str.split(sep)` for a one-character separator. -/
def pySplitOnChar (sep : Char) : List Char → List (List Char)
  | [] => [[]]
  | c :: cs =>
    if c = sep then [] :: pySplitOnChar sep cs
    else
      match pySplitOnChar sep cs with
      | t :: ts => (c :: t) :: ts
      | [] => [[c]]

/-! ### `RX_STRIP_ATTRS` and `strip_unwanted_attrs` (source lines 57, 70-71)

`RX_STRIP_ATTRS = re.compile(r'\s+(?:srcset|sizes|decoding|fetchpriority|`
`data-[^=]+|class|width|height|loading)="[^"]*"', flags=re.I)`;
`strip_unwanted_attrs` deletes every match. -/

/-- Match a literal case-insensitively at the head, returning the rest. -/
def matchLitCI : List Char → List Char → Option (List Char)
  | [], cs => some cs
  | _ :: _, [] => none
  | p :: ps, c :: cs => if c.toLower = p.toLower then matchLitCI ps cs else none

/-- Match `="[^"]*"` at the head, returning the rest. -/
def matchAttrVal : List Char → Option (List Char)
  | '=' :: '"' :: rest =>
    match (rest.span (fun c => c != '"')).2 with
    | '"' :: r => some r
    | _ => none
  | _ => none

/-- Match one fixed attribute-name alternative followed by `="[^"]*"`. -/
def tryAttrName (name : String) (cs : List Char) : Option (List Char) :=
  (matchLitCI name.toList cs).bind matchAttrVal

/-- Match the `data-[^=]+="[^"]*"` alternative. -/
def tryDataAttr (cs : List Char) : Option (List Char) :=
  (matchLitCI "data-".toList cs).bind fun r =>
    let pr := r.span (fun c => c != '=')
    if pr.1.isEmpty then none else matchAttrVal pr.2

/-- The alternation of `RX_STRIP_ATTRS`, in the pattern's order. -/
def tryAttrAlts (cs : List Char) : Option (List Char) :=
  (tryAttrName "srcset" cs) <|> (tryAttrName "sizes" cs) <|>
  (tryAttrName "decoding" cs) <|> (tryAttrName "fetchpriority" cs) <|>
  (tryDataAttr cs) <|> (tryAttrName "class" cs) <|> (tryAttrName "width" cs) <|>
  (tryAttrName "height" cs) <|> (tryAttrName "loading" cs)

/-- Match the whole `RX_STRIP_ATTRS` pattern (`\s+` then the alternation) at
the head. -/
def tryStripMatch (cs : List Char) : Option (List Char) :=
  let pr := cs.span isPySpace
  if pr.1.isEmpty then none else tryAttrAlts pr.2

/-- Left-to-right scan of `RX_STRIP_ATTRS.sub('', ·)`; fuel bounds the scan
(each step consumes at least one character, so `length` fuel is enough). -/
def stripScan : Nat → List Char → List Char
  | 0, cs => cs
  | _ + 1, [] => []
  | fuel + 1, c :: cs =>
    match tryStripMatch (c :: cs) with
    | some rest => stripScan fuel rest
    | none => c :: stripScan fuel cs

/-- `strip_unwanted_attrs(html_str)` = `RX_STRIP_ATTRS.sub('', html_str)`. -/
def strip_unwanted_attrs (h : String) : String :=
  ⟨stripScan h.toList.length h.toList⟩

/-! ### `add_or_merge_style` (source lines 73-76) -/

/-- `re.sub(r'style="([^"]*)"', lambda m: f'style="{m.group(1).rstrip(";")};`
` {extra}"', tag, 1)`: rewrite the first `style="…"` occurrence. -/
def subStyleOnce (tag extra : String) : String :=
  match splitAtSub "style=\"".toList tag.toList with
  | none => tag
  | some (before, after) =>
    match (after.span (fun c => c != '"')).2 with
    | '"' :: rest =>
      ⟨before⟩ ++ "style=\"" ++ rstripSemis ⟨(after.span (fun c => c != '"')).1⟩ ++
        "; " ++ extra ++ "\"" ++ ⟨rest⟩
    | _ => tag

/-- `add_or_merge_style(tag, extra)`: if the serialized tag has no
` style=` substring, insert a style attribute at the first `>`; otherwise
merge `extra` into the first style attribute. -/
def add_or_merge_style (tag extra : String) : String :=
  if containsSub " style=".toList tag.toList = false then
    replaceFirst tag ">" (" style=\"" ++ extra ++ "\">")
  else subStyleOnce tag extra

/-! ### The HTML body tree

An lxml element tree for the raw body.  lxml's `.text`/`.tail` slots are
represented as `text` children: an element's `tail` is the run of `text`
nodes directly following it in its parent's child list. -/

/-- A node of the parsed HTML body. -/
inductive HNode where
  | elem (tag : String) (attrs : List (String × String)) (children : List HNode)
  | text (s : String)

/-- Child list of a node (`[]` for text). -/
def HNode.childrenL : HNode → List HNode
  | .elem _ _ cs => cs
  | .text _ => []

/-- Tag of a node, if it is an element. -/
def HNode.tagQ : HNode → Option String
  | .elem t _ _ => some t
  | .text _ => none

/-- Is this node an element? -/
def HNode.isElem : HNode → Bool
  | .elem _ _ _ => true
  | .text _ => false

/-- The element children of a child list — what `len(p)` and `p[0]` see in
lxml (text is not counted). -/
def elemChildren (cs : List HNode) : List HNode := cs.filter HNode.isElem

/-- `element.attrib.get(k)`: first binding of `k` in the attribute list. -/
def attrLookup : List (String × String) → String → Option String
  | [], _ => none
  | (k', v) :: r, k => if k' = k then some v else attrLookup r k

/-- The leading run of text among a sibling list — the lxml `tail` of the
node standing directly before that list. -/
def textRun : List HNode → String
  | .text s :: rest => s ++ textRun rest
  | _ => ""

/-- Escaping of one character of text content in lxml's html
serialization. -/
def escTextChar (c : Char) : List Char :=
  if c = '&' then "&amp;".toList else if c = '<' then "&lt;".toList
  else if c = '>' then "&gt;".toList else [c]

/-- Escaping of text content in lxml's html serialization. -/
def escText (s : String) : String := ⟨s.toList.flatMap escTextChar⟩

/-- Escaping of one character of an attribute value in lxml's html
serialization. -/
def escAttrChar (c : Char) : List Char :=
  if c = '&' then "&amp;".toList else if c = '"' then "&quot;".toList
  else if c = '<' then "&lt;".toList else if c = '>' then "&gt;".toList
  else [c]

/-- Escaping of attribute values in lxml's html serialization. -/
def escAttr (s : String) : String := ⟨s.toList.flatMap escAttrChar⟩

/-- HTML void elements, serialized without a closing tag. -/
def isVoidTag (t : String) : Bool :=
  t == "area" || t == "base" || t == "br" || t == "col" || t == "embed" ||
  t == "hr" || t == "img" || t == "input" || t == "link" || t == "meta" ||
  t == "param" || t == "source" || t == "track" || t == "wbr"

/-- Serialize an attribute list in insertion order. -/
def serializeAttrs : List (String × String) → String
  | [] => ""
  | (k, v) :: rest => " " ++ k ++ "=\"" ++ escAttr v ++ "\"" ++ serializeAttrs rest

mutual

/-- `etree.tostring(node, encoding='unicode', method='html')` without the
tail (the caller appends the tail where the source serializes with it). -/
def serializeNode : HNode → String
  | .text s => escText s
  | .elem t attrs cs =>
    "<" ++ t ++
      serializeAttrs attrs ++ ">" ++
      (if isVoidTag t then "" else serializeList cs ++ "</" ++ t ++ ">")

/-- Serialize a child list. -/
def serializeList : List HNode → String
  | [] => ""
  | n :: rest => serializeNode n ++ serializeList rest

end

/-! ### `clean_img_html` (source lines 63-68)

```
def clean_img_html(img) -> str:
    t = etree.fromstring(etree.tostring(img))
    src, alt = t.get('src'), t.get('alt', '')
    t.attrib.clear(); t.set('src', src); t.set('style', 'width:100%;')
    if alt: t.set('alt', alt)
    return etree.tostring(t, encoding='unicode', method='html')
```

`etree.tostring(img)` (XML method) serializes the element *with its tail*;
`etree.fromstring` then rejects any document with non-whitespace content
after the root element, so an image with a non-whitespace tail raises an
`XMLSyntaxError`.  When the image has no `src` attribute, `t.set('src',
None)` raises a `TypeError`.  The function is modelled on the image's
attribute list and tail (images are childless in parsed HTML). -/
def clean_img_html (attrs : List (String × String)) (tail : String) :
    Except PyErr String :=
  if isWsOnly tail = false then
    .error (.xmlError "Extra content at the end of the document")
  else
    match attrLookup attrs "src" with
    | none => .error (.typeError "Argument must be bytes or unicode, got NoneType")
    | some src =>
      let alt := (attrLookup attrs "alt").getD ""
      .ok ("<img src=\"" ++ escAttr src ++ "\" style=\"width:100%;\"" ++
           (if alt ≠ "" then " alt=\"" ++ escAttr alt ++ "\"" else "") ++ ">")

/-! ### XPath traversals used by the normalizer (source lines 114-132)

`root.xpath('.//p')`, `p.xpath('.//img')` and
`root.xpath('.//img[not(ancestor::p)]')` list descendants in document
order; the root node itself is never matched by a `.//` path.  Each match
is paired with its lxml tail. -/

mutual

/-- The `p` descendants strictly inside one node, in document order. -/
def psInNode : HNode → List (HNode × String)
  | .elem _ _ cs => psList cs
  | .text _ => []

/-- All `p` descendants of a sibling list in document order, each with its
tail. -/
def psList : List HNode → List (HNode × String)
  | [] => []
  | n :: rest =>
    (match n with
     | .elem "p" _ _ => [(n, textRun rest)]
     | _ => []) ++ (psInNode n ++ psList rest)

end

/-- `root.xpath('.//p')` with tails. -/
def psOf (root : HNode) : List (HNode × String) := psList root.childrenL

mutual

/-- The `img` descendants strictly inside one node, in document order. -/
def imgsInNode : HNode → List (List (String × String) × String)
  | .elem _ _ cs => imgsList cs
  | .text _ => []

/-- All `img` descendants of a sibling list in document order, as
(attribute list, tail) pairs. -/
def imgsList : List HNode → List (List (String × String) × String)
  | [] => []
  | n :: rest =>
    (match n with
     | .elem "img" a _ => [(a, textRun rest)]
     | _ => []) ++ (imgsInNode n ++ imgsList rest)

end

mutual

/-- The `p`-ancestor-free `img` descendants strictly inside one node:
everything below a `p` is skipped. -/
def imgsNoPInNode : HNode → List (List (String × String) × String)
  | .elem "p" _ _ => []
  | .elem _ _ cs => imgsNoPList cs
  | .text _ => []

/-- `img` descendants of a sibling list that have no `p` ancestor. -/
def imgsNoPList : List HNode → List (List (String × String) × String)
  | [] => []
  | n :: rest =>
    (match n with
     | .elem "img" a _ => [(a, textRun rest)]
     | _ => []) ++ (imgsNoPInNode n ++ imgsNoPList rest)

end

/-- `root.xpath('.//img[not(ancestor::p)]')` with tails.  If the root
itself is a `p`, every image below it has a `p` ancestor. -/
def imgsNoP (root : HNode) : List (List (String × String) × String) :=
  if root.tagQ = some "p" then [] else imgsNoPList root.childrenL

/-- The paragraph-skip test of line 116:
`len(p) == 1 and p[0].tag == 'a' and len(p[0]) and p[0][0].tag == 'img'`. -/
def skipP (cs : List HNode) : Bool :=
  match elemChildren cs with
  | [c] =>
    match c with
    | .elem "a" _ acs =>
      match elemChildren acs with
      | i :: _ => i.tagQ = some "img"
      | [] => false
    | _ => false
  | _ => false

/-- The placeholder token `__IMG_{len(segs)}_{i}__` of line 120. -/
def phName (n i : Nat) : String :=
  "__IMG_" ++ toString n ++ "_" ++ toString i ++ "__"

/-- Drop the leading text run of a child list (what assigning
`element.text` overwrites). -/
def dropLeadingText : List HNode → List HNode
  | .text _ :: rest => dropLeadingText rest
  | l => l

mutual

/-- The in-place mutation of line 122 applied to one node, threading the
placeholder counter: an image's attributes are cleared, its tag becomes
`span` and its text the placeholder (assigning `.text` overwrites the
leading text run; element children stay). -/
def mutNode (n : Nat) : Nat → HNode → HNode × Nat
  | i, .elem "img" _ cs =>
    let inner := mutSibs n (i + 1) cs
    (.elem "span" [] (.text (phName n i) :: dropLeadingText inner.1), inner.2)
  | i, .elem t a cs =>
    let inner := mutSibs n i cs
    (.elem t a inner.1, inner.2)
  | i, .text s => (.text s, i)

/-- `mutNode` over a sibling list in document order. -/
def mutSibs (n : Nat) : Nat → List HNode → List HNode × Nat
  | i, [] => ([], i)
  | i, x :: rest =>
    let h := mutNode n i x
    let t := mutSibs n h.2 rest
    (h.1 :: t.1, t.2)

end

/-- The mutation over a paragraph's children. -/
def mutateImgs (n i : Nat) (cs : List HNode) : List HNode × Nat := mutSibs n i cs

/-- `clean_img_html` applied to a list of images, stopping at the first
raised exception (the per-image loop of lines 119-121 raises out of the
whole pipeline). -/
def cleanAll : List (List (String × String) × String) → Except PyErr (List String)
  | [] => .ok []
  | (a, t) :: rest =>
    match clean_img_html a t with
    | .error e => .error e
    | .ok s =>
      match cleanAll rest with
      | .error e => .error e
      | .ok l => .ok (s :: l)

/-! ### The paragraph loop and the standalone-image loop (lines 114-132) -/

/-- Process one non-skipped paragraph (lines 118-128): clean each image
(first failure raises), mutate the images into placeholder spans, serialize
the mutated paragraph with its tail, strip unwanted attributes, merge the
justify style, right-strip, then substitute the cleaned image markup back
for the placeholders. -/
def processP (n : Nat) (pAttrs : List (String × String)) (cs : List HNode)
    (ptail : String) : Except PyErr String :=
  let imgs := imgsList cs
  match cleanAll imgs with
  | .error e => .error e
  | .ok cleaned =>
    let mutated := (mutateImgs n 0 cs).1
    let h0 := serializeNode (.elem "p" pAttrs mutated) ++ ptail
    let h1 := rstripWs (add_or_merge_style (strip_unwanted_attrs h0)
      "text-align: justify;")
    .ok (((List.range imgs.length).map (phName n)).zip cleaned
      |>.foldl (fun acc pr => pyReplaceAll acc pr.1 pr.2) h1)

/-- Attribute list of a node (`[]` for text). -/
def pAttrsOf : HNode → List (String × String)
  | .elem _ a _ => a
  | .text _ => []

/-- The paragraph loop (lines 115-128), threading `segs` and `first_img`.
`first_img` carries a Python `None`-or-`str` value, starting as `''`.
Line 123 reads `img.get('src')` after `img.attrib.clear()`, so each
processed in-paragraph image contributes `None`, i.e.
`first_img = first_img or None`. -/
def runPs : List (HNode × String) → List String → Option String →
    Except PyErr (List String × Option String)
  | [], segs, fi => .ok (segs, fi)
  | (p, ptl) :: rest, segs, fi =>
    if skipP p.childrenL then runPs rest segs fi
    else
      match processP segs.length (pAttrsOf p) p.childrenL ptl with
      | .error e => .error e
      | .ok h =>
        let fi' := (imgsList p.childrenL).foldl (fun f _ => pyOr f none) fi
        runPs rest (segs ++ [h]) fi'

/-- The standalone-image loop (lines 129-132): each image outside any
paragraph is cleaned, wrapped in a justified paragraph, and its `src`
(still intact here) feeds `first_img = first_img or img.get('src')`. -/
def runOut : List (List (String × String) × String) → List String →
    Option String → Except PyErr (List String × Option String)
  | [], segs, fi => .ok (segs, fi)
  | (a, tl) :: rest, segs, fi =>
    match clean_img_html a tl with
    | .error e => .error e
    | .ok ih =>
      runOut rest (segs ++ ["<p style=\"text-align: justify;\">" ++ ih ++ "</p>"])
        (pyOr fi (attrLookup a "src"))

/-- The whole normalization of the raw body tree (lines 114-132), returning
`(segs, first_img)`. -/
def normalize (root : HNode) : Except PyErr (List String × Option String) :=
  match runPs (psOf root) [] (some "") with
  | .error e => .error e
  | .ok pr => runOut (imgsNoP root) pr.1 pr.2

/-! ### Body assembly (lines 134-135) -/

/-- The trailing attribution paragraph of line 135:
`f"\n<p style=\"text-align: justify;\"><a href=\"{url}\">{title}</a></p>"`. -/
def attribution (url title : String) : String :=
  "\n<p style=\"text-align: justify;\"><a href=\"" ++ url ++ "\">" ++ title ++
    "</a></p>"

/-- Lines 134-135: `body = '\n'.join(segs) or '<p …>（本文無內容）</p>'`,
then the attribution paragraph is appended. -/
def buildBody (segs : List String) (url title : String) : String :=
  (if String.intercalate "\n" segs ≠ "" then String.intercalate "\n" segs
   else "<p style=\"text-align: justify;\">（本文無內容）</p>") ++
    attribution url title

/-! ### Keywords (lines 105-107) -/

/-- The comprehension of line 107,
`[k for k in kw if not (k in seen_kw or seen_kw.add(k))]`: keep an element
iff it is not in the `seen_kw` set, which receives every element. -/
def dedupSeen : List String → List String → List String
  | [], _ => []
  | k :: rest, seenKw =>
    if k ∈ seenKw then dedupSeen rest seenKw
    else k :: dedupSeen rest (k :: seenKw)

/-- Lines 105-107: `kw = ['DecoTV'] + split_kw(keywords-meta) + tag-texts`,
deduplicated through `seen_kw` and joined with commas. -/
def buildKeywords (kwMeta : String) (tagTexts : List String) : String :=
  String.intercalate "," (dedupSeen ("DecoTV" :: (split_kw kwMeta ++ tagTexts)) [])

/-! ### Published time (line 103) -/

/-- `created.replace('T',' ').split('+')[0]` for a non-empty meta value. -/
def pyCreated (c : String) : String :=
  match pySplitOnChar '+' (pyReplaceAll c "T" " ").toList with
  | x :: _ => ⟨x⟩
  | [] => pyReplaceAll c "T" " "

/-! ### The environment: modelled library calls

The page document is abstracted by the results of the five XPath queries of
lines 100-109 (the lxml parse and `make_links_absolute` are library code);
`requests.get(·, headers=UA, timeout=10)` is one oracle used by the page
fetch, the structured-content fetch and the cover fetch;
`requests.post(API_URL, data=payload, files=files)` is an oracle whose
response does not depend on the payload (no claim needs that dependence);
`json.loads` and `lxml.html.fromstring` (on the rendered body) are oracles
that may raise. -/

/-- The XPath extraction results of lines 100-109 for the fetched page:
`//h1[@class="page-title"]//text()` joined, `//meta[@property="og:image"]`
content joined, `//meta[@property="article:published_time"]` content
joined, `//meta[@name="keywords"]` content joined, the
`//div[contains(@class,"entry-tags")]//a/text()` list, and the
`//link[@rel="alternate" and @type="application/json"]/@href` join. -/
structure Page where
  titleText : String
  ogImage : String
  publishedTime : String
  keywordsMeta : String
  tagTexts : List String
  restHref : String
deriving DecidableEq

/-- A JSON value as returned by `json.loads` (objects as association lists
with distinct keys). -/
inductive Jv where
  | null
  | bool (b : Bool)
  | num (n : Int)
  | str (s : String)
  | arr (l : List Jv)
  | obj (l : List (String × Jv))

/-- Python `value.get(key, default)`: a dict lookup, raising
`AttributeError` on a non-dict. -/
def jvGetD : Jv → String → Jv → Except PyErr Jv
  | .obj l, k, d => .ok (((l.find? (fun kv => kv.1 = k)).map Prod.snd).getD d)
  | _, _, _ => .error (.attributeError "object has no attribute get")

/-- The tuple built by `fetch_pic`: `(f'image.{ext}', r.content,
r.headers.get('content-type'))`. -/
structure PicTuple where
  filename : String
  content : List Nat
  contentType : Option String
deriving DecidableEq

/-- The submission payload of lines 140-148. -/
structure Payload where
  sign : String
  sign_time : String
  title : String
  description : String
  content : String
  keywords : String
  type : String
  ac_type : String
  created_time : String
deriving DecidableEq

/-- Lines 139-148: the signed payload. -/
def mkPayload (md5 : String → String) (apiKey now title body keywords created :
    String) : Payload :=
  { sign := md5 (title ++ now ++ apiKey), sign_time := now, title := title,
    description := "", content := body, keywords := keywords, type := "2",
    ac_type := "5", created_time := created }

/-- The modelled library world. -/
structure Env where
  httpGet : String → Except PyErr Response
  httpPost : Except PyErr Response
  parsePage : String → Except PyErr Page
  jsonLoads : String → Except PyErr Jv
  htmlFromString : String → Except PyErr HNode

/-- `fetch_pic` (lines 78-86): any exception — a raising `get` or a 4xx/5xx
status — is caught and turns into `None`; otherwise the filename extension
comes from the `content-type` header (default `image/jpeg`), split on `/`,
last piece. -/
def fetch_pic (get : String → Except PyErr Response) (url : String) :
    Option PicTuple :=
  match get url with
  | .error _ => none
  | .ok r =>
    if raisesForStatus r.status_code then none
    else
      some { filename := "image." ++
               ⟨(pySplitOnChar '/' (r.headersContentType.getD "image/jpeg").toList).getLastD []⟩,
             content := r.content,
             contentType := r.headersContentType }

/-- Models the multipart encoding of `requests.post(..., files=...)`: a
file entry whose value is `None` is skipped, so `{'pic': None}` contributes
no part (`requests.models._encode_files` does `continue` on a `None`
value). -/
def encodeParts : Option PicTuple → List (String × PicTuple)
  | some t => [("pic", t)]
  | none => []

/-- `json.loads(raw_json).get('content', {}).get('rendered', '')` followed
by `html.fromstring(raw)` (lines 110-112). -/
def jsonToRoot (env : Env) (t : String) : Except PyErr HNode :=
  match env.jsonLoads t with
  | .error e => .error e
  | .ok j =>
    match jvGetD j "content" (.obj []) with
    | .error e => .error e
    | .ok j1 =>
      match jvGetD j1 "rendered" (.str "") with
      | .error e => .error e
      | .ok (.str raw) => env.htmlFromString raw
      | .ok _ => .error (.valueError "fromstring expects a string")

/-! ### `push_article` (lines 89-158)

Effects are recorded as an event trace: the network fetches
(`requests.get`), the form post (`requests.post`) and each append to the
posted-id file (`save_posted`).  Everything before the post only performs
GETs, so that phase reports just the list of fetched URLs. -/

/-- An observable effect of `push_article`. -/
inductive Event where
  /-- `requests.get(url, headers=UA, timeout=10)` — page, structured
  content, or cover image. -/
  | httpGet (url : String)
  /-- `requests.post(API_URL, data=payload, files=files)` with the encoded
  file parts. -/
  | httpPost (payload : Payload) (parts : List (String × PicTuple))
  /-- `save_posted(uid)` — one line appended to the posted file. -/
  | savePosted (uid : String)
deriving DecidableEq

/-- Lines 94-148 — everything before the `requests.post` call: fetch and
parse the page (`raise_for_status` on it), extract the fields, fetch the
structured-content endpoint (no status check: only `.text` is read), parse
the JSON, normalize the body, assemble the payload, and fetch the cover
picture when the cover value is truthy.  Returns the GET URLs in call
order, and either the raised exception or the payload with the encoded
file parts. -/
def prePost (env : Env) (md5 : String → String) (now apiKey url : String) :
    List String × Except PyErr (Payload × List (String × PicTuple)) :=
  match env.httpGet url with
  | .error e => ([url], .error e)
  | .ok resp =>
    if raisesForStatus resp.status_code then
      ([url], .error (.httpError resp.status_code))
    else
      match env.parsePage resp.text with
      | .error e => ([url], .error e)
      | .ok page =>
        match env.httpGet page.restHref with
        | .error e => ([url, page.restHref], .error e)
        | .ok restResp =>
          match jsonToRoot env restResp.text with
          | .error e => ([url, page.restHref], .error e)
          | .ok root =>
            match normalize root with
            | .error e => ([url, page.restHref], .error e)
            | .ok (segs, firstImg) =>
              let title := pyStrip page.titleText
              let payload := mkPayload md5 apiKey now title
                (buildBody segs url title)
                (buildKeywords page.keywordsMeta page.tagTexts)
                (if page.publishedTime ≠ "" then pyCreated page.publishedTime
                 else now)
              let cover := pyOr (some page.ogImage) firstImg
              if pyTruthy cover then
                ([url, page.restHref, cover.getD ""],
                 .ok (payload, encodeParts (fetch_pic env.httpGet (cover.getD ""))))
              else ([url, page.restHref], .ok (payload, []))

/-- `push_article(url, seen)` (lines 89-158).  Returns the event trace and
either the raised exception or the Python return value (`None` for the
seen-skip and the remote 409; `'ok'` on success). -/
def push_article (env : Env) (md5 : String → String) (now apiKey url : String)
    (seen : List String) : List Event × Except PyErr (Option String) :=
  let uid := md5 url
  if uid ∈ seen then ([], .ok none)
  else
    match prePost env md5 now apiKey url with
    | (gets, .error e) => (gets.map Event.httpGet, .error e)
    | (gets, .ok (payload, parts)) =>
      let tr := gets.map Event.httpGet ++ [Event.httpPost payload parts]
      match env.httpPost with
      | .error e => (tr, .error e)
      | .ok rsp =>
        if rsp.status_code = 409 then
          (tr ++ [Event.savePosted uid], .ok none)
        else if raisesForStatus rsp.status_code then
          (tr, .error (.httpError rsp.status_code))
        else (tr ++ [Event.savePosted uid], .ok (some "ok"))

/-! ### `process_rss` (lines 161-174) -/

/-- The aggregated run results: `{'success': [...], 'failed': [...]}` with
each failure as `(url, str(e))`. -/
structure RunResults where
  success : List String
  failed : List (String × String)
deriving DecidableEq

/-- The loop body of `process_rss` (lines 166-173): one entry's
`push_article` inside `try` — a truthy result appends the link to
`success`, a raised exception appends `(link, str(e))` to `failed`, and
either way the loop continues with the next entry. -/
def rssStep (md5 : String → String) (now apiKey : String) (seen : List String)
    (acc : RunResults × List Event) (ent : String × Env) :
    RunResults × List Event :=
  match push_article ent.2 md5 now apiKey ent.1 seen with
  | (tr, .ok res) =>
    ({ acc.1 with
        success := acc.1.success ++ (if pyTruthy res then [ent.1] else []) },
     acc.2 ++ tr)
  | (tr, .error e) =>
    ({ acc.1 with failed := acc.1.failed ++ [(ent.1, e.message)] },
     acc.2 ++ tr)

/-- `process_rss` (lines 161-174) over the parsed feed: `entries` pairs
each entry link with its modelled world; `seen` is the set loaded once by
`load_posted()` — the Python loop never mutates it.  The source returns
`(results, 200)`; the constant status is omitted and the concatenated
event trace is returned alongside. -/
def process_rss (md5 : String → String) (now apiKey : String)
    (entries : List (String × Env)) (seen : List String) :
    RunResults × List Event :=
  entries.foldl (rssStep md5 now apiKey seen) ({ success := [], failed := [] }, [])

/-! ### Concrete worlds used by the witnesses and counterexamples -/

/-- A stand-in for `hashlib.md5(...).hexdigest()` in concrete runs: any
function of the URL works for the claims, which use the identifier
opaquely. -/
def md5id (s : String) : String := s

/-- A fixed clock value. -/
def nowA : String := "2025-01-01 12:00:00"

/-- The article URL of the concrete runs. -/
def urlA : String := "https://e/a"

/-- The structured-content (JSON alternate) URL of the concrete runs. -/
def restA : String := "https://e/rest"

/-- The cover-image URL of the concrete runs. -/
def coverA : String := "https://e/c"

/-- A 200 response with the given body text. -/
def respOk (t : String) : Response :=
  { status_code := 200, text := t, headersContentType := some "image/jpeg",
    content := [7] }

/-- A response with the given status. -/
def respWith (s : Nat) : Response :=
  { status_code := s, text := "x", headersContentType := none, content := [] }

/-- The extraction results of the concrete page: title `T`, no Open Graph
image, a published time with timezone suffix, empty keywords meta, no tag
links, and `restA` as the JSON alternate link. -/
def pageA : Page :=
  { titleText := "T", ogImage := "", publishedTime := "2024-01-02T03:04:05+08:00",
    keywordsMeta := "", tagTexts := [], restHref := restA }

/-- The baseline world: both fetches succeed, the rendered body is an
empty `div`, the post answers 200. -/
def envA : Env :=
  { httpGet := fun _ => .ok (respOk "x"),
    httpPost := .ok (respOk ""),
    parsePage := fun _ => .ok pageA,
    jsonLoads := fun _ =>
      .ok (.obj [("content", .obj [("rendered", .str "<div></div>")])]),
    htmlFromString := fun _ => .ok (.elem "div" [] []) }

/-- The payload assembled in the baseline world. -/
def payloadA : Payload :=
  { sign := "T" ++ nowA ++ "KEY", sign_time := nowA, title := "T",
    description := "",
    content := "<p style=\"text-align: justify;\">（本文無內容）</p>" ++
      attribution urlA "T",
    keywords := "DecoTV", type := "2", ac_type := "5",
    created_time := "2024-01-02 03:04:05" }

deriving instance DecidableEq for Except

/-! ### Specification-side definitions

These follow the specification's words, for comparison with the
source-translated definitions above. -/

/-- Deduplication preserving first-occurrence order, as the specification
words it ("deduplicated preserving first-occurrence order"). -/
def dedupFirst : List String → List String
  | [] => []
  | k :: rest => k :: dedupFirst (rest.filter (fun x => decide (x ≠ k)))
termination_by l => l.length
decreasing_by
  exact Nat.lt_succ_of_le (List.length_filter_le _ _)

/-- The specification's "first image URL encountered anywhere in the body
(inside or outside paragraphs)": the `src` of the first image in document
order. -/
def specFirstImageSrc (root : HNode) : Option String :=
  match imgsList root.childrenL with
  | [] => none
  | (a, _) :: _ => attrLookup a "src"

/-- The images that the normalizer actually runs `clean_img_html` on: the
images of non-skipped paragraphs, then the images outside any paragraph. -/
def processedImgs (root : HNode) : List (List (String × String) × String) :=
  (((psOf root).filter (fun pt => !skipP pt.1.childrenL)).flatMap
    (fun pt => imgsList pt.1.childrenL)) ++ imgsNoP root

/-! ## Claims -/

/-! ### C7 — keyword merging and deduplication -/

lemma filterNotMemCons (r : List String) (k : String) (s : List String) :
    r.filter (fun x => decide (x ∉ k :: s)) =
      (r.filter (fun x => decide (x ∉ s))).filter (fun x => decide (x ≠ k)) := by
  rw [List.filter_filter]
  apply List.filter_congr
  intro x _
  by_cases hk : x = k <;> by_cases hs : x ∈ s <;> simp [hk, hs]

lemma dedupFirstCons (k : String) (rest : List String) :
    dedupFirst (k :: rest) =
      k :: dedupFirst (rest.filter (fun x => decide (x ≠ k))) := by
  rw [dedupFirst.eq_def]

/-- The seen-set comprehension of line 107 computes exactly
first-occurrence deduplication of the elements not already seen. -/
lemma dedupSeenEqDedupFirst (l : List String) :
    ∀ s, dedupSeen l s = dedupFirst (l.filter (fun x => decide (x ∉ s))) := by
  induction l with
  | nil => intro s; simp [dedupSeen, dedupFirst]
  | cons k r ih =>
    intro s
    by_cases hk : k ∈ s
    · simp [dedupSeen, hk, ih s, List.filter_cons]
    · simp only [dedupSeen, hk, if_false, List.filter_cons]
      simp only [hk, decide_not, decide_eq_true_eq, not_false_eq_true,
        Bool.not_false]
      simp only [if_true]
      rw [dedupFirstCons, ih (k :: s), filterNotMemCons]
      simp [decide_not]

/-- **C7** (confirmed).  For every page, the keyword list is built from the
fixed leading tag `DecoTV`, then the comma/fullwidth-comma/ideographic-
comma-split keyword-meta content, then the tag-link texts, deduplicated
preserving first-occurrence order and joined with commas; in particular the
sources `["DecoTV"]`, `"A,B,A"`, `["B","C"]` yield `"DecoTV,A,B,C"`. -/
theorem claim_C7 :
    (∀ kwMeta tagTexts,
       buildKeywords kwMeta tagTexts =
         String.intercalate ","
           (dedupFirst ("DecoTV" :: (split_kw kwMeta ++ tagTexts)))) ∧
    buildKeywords "A,B,A" ["B", "C"] = "DecoTV,A,B,C" := by
  constructor
  · intro kwMeta tagTexts
    rw [buildKeywords, dedupSeenEqDedupFirst]
    simp
  · decide

/-! ### C8 — body fallback and trailing attribution -/

/-- **C8** (confirmed).  If normalization produces zero content blocks, the
normalized body is the fixed placeholder paragraph followed by the
attribution paragraph; for every body the result ends with the appended
attribution paragraph hyperlinking the source URL, labeled with the title.
The last conjunct shows the empty-blocks case end to end: in the baseline
world (whose rendered body is an empty `div`) the submitted `content` field
is exactly placeholder-plus-attribution. -/
theorem claim_C8 :
    (∀ url title,
       buildBody [] url title =
         "<p style=\"text-align: justify;\">（本文無內容）</p>" ++
           attribution url title) ∧
    attribution urlA "T" =
      "\n<p style=\"text-align: justify;\"><a href=\"https://e/a\">T</a></p>" ∧
    (∀ segs url title, ∃ core,
       buildBody segs url title = core ++ attribution url title) ∧
    (prePost envA md5id nowA "KEY" urlA).2 = .ok (payloadA, []) := by
  refine ⟨fun url title => rfl, by decide, fun segs url title => ⟨_, rfl⟩,
    by decide⟩

/-! ### C9 — image cleaning keeps exactly src, style, alt -/

/-- **C9** (confirmed).  For *every* attribute list carrying a `src` — no
matter which other attributes (`class`, `width`, `height`, `loading`,
`srcset`, `data-*`, …) accompany it — the cleaned output is built from the
`src` and `alt` lookups alone: it retains exactly `src`,
`style="width:100%;"`, and `alt` when present and non-empty; every other
attribute is dropped (first conjunct, general).  The second and third
conjuncts show it concretely: extra attributes beyond the spec's example
vanish, and a present-but-empty `alt` is omitted. -/
theorem claim_C9 :
    (∀ (attrs : List (String × String)) (tail : String) s,
       isWsOnly tail = true →
       attrLookup attrs "src" = some s →
       clean_img_html attrs tail =
         .ok ("<img src=\"" ++ escAttr s ++ "\" style=\"width:100%;\"" ++
              (if (attrLookup attrs "alt").getD "" ≠ "" then
                 " alt=\"" ++ escAttr ((attrLookup attrs "alt").getD "") ++ "\""
               else "") ++ ">")) ∧
    clean_img_html
        [("src", "u"), ("class", "c"), ("width", "9"), ("height", "9"),
         ("loading", "lazy"), ("data-x", "1"), ("alt", "A")] "" =
      .ok "<img src=\"u\" style=\"width:100%;\" alt=\"A\">" ∧
    clean_img_html [("src", "u"), ("alt", ""), ("class", "c")] "" =
      .ok "<img src=\"u\" style=\"width:100%;\">" := by
  refine ⟨?_, by decide, by decide⟩
  intro attrs tail s hw hsrc
  simp [clean_img_html, hw, hsrc]

/-- Witness for C9: the general conjunct at a concrete attribute list. -/
theorem claim_C9_witness :
    clean_img_html [("src", "u"), ("alt", "A")] "" =
      .ok ("<img src=\"" ++ escAttr "u" ++ "\" style=\"width:100%;\"" ++
           (if (attrLookup [("src", "u"), ("alt", "A")] "alt").getD "" ≠ "" then
              " alt=\"" ++
                escAttr ((attrLookup [("src", "u"), ("alt", "A")] "alt").getD "") ++
                "\""
            else "") ++ ">") :=
  claim_C9.1 [("src", "u"), ("alt", "A")] "" "u" (by decide) (by decide)

/-! ### Trace-ordering infrastructure for C1 -/

/-- Is the event a store write? -/
def isSaveEv : Event → Bool
  | .savePosted _ => true
  | _ => false

/-- Is the event the remote form post? -/
def isPostEv : Event → Bool
  | .httpPost _ _ => true
  | _ => false

/-- "The store is written only after the remote call": at every prefix of
the trace, a store write can only have happened if the post has. -/
def savedAfterPost (tr : List Event) : Prop :=
  ∀ n : Nat, (tr.take n).any isSaveEv = true → (tr.take n).any isPostEv = true

lemma noSaveInGets (gets : List String) :
    ∀ e ∈ gets.map Event.httpGet, isSaveEv e = false := by
  intro e he
  rcases List.mem_map.mp he with ⟨u, _, rfl⟩
  rfl

lemma savedAfterPostOfNoSave (l : List Event)
    (h : ∀ e ∈ l, isSaveEv e = false) : savedAfterPost l := by
  intro n hn
  exfalso
  rcases List.any_eq_true.mp hn with ⟨e, he, hse⟩
  have := h e (List.take_subset n l he)
  rw [this] at hse
  exact Bool.false_ne_true hse

lemma savedAfterPostAppend (l : List Event) (pl : Payload)
    (parts : List (String × PicTuple)) (rest : List Event)
    (h : ∀ e ∈ l, isSaveEv e = false) :
    savedAfterPost (l ++ Event.httpPost pl parts :: rest) := by
  intro n hn
  rw [List.take_append_eq_append_take] at hn ⊢
  rcases List.any_eq_true.mp hn with ⟨e, he, hse⟩
  rcases List.mem_append.mp he with hel | her
  · exfalso
    have := h e (List.take_subset n l hel)
    rw [this] at hse
    exact Bool.false_ne_true hse
  · match hk : n - l.length with
    | 0 => rw [hk] at her; exact absurd her (List.not_mem_nil e)
    | k + 1 =>
      apply List.any_eq_true.mpr
      refine ⟨Event.httpPost pl parts, ?_, rfl⟩
      apply List.mem_append.mpr
      right
      rw [List.take_succ_cons]
      exact List.mem_cons_self _ _

/-- Every branch of the pre-post phase fetches the article page first. -/
lemma prePostGetsHead (env : Env) (md5 : String → String)
    (now apiKey url : String) :
    ∃ rest, (prePost env md5 now apiKey url).1 = url :: rest := by
  unfold prePost
  repeat' split
  all_goals first
    | exact ⟨_, rfl⟩
    | (dsimp only; split <;> exact ⟨_, rfl⟩)

/-! ### C1 — outcome of the remote call and store-write ordering -/

/-- The baseline world with a `300` post response. -/
def env300 : Env := { envA with httpPost := .ok (respWith 300) }

/-- The baseline world with a `409` post response. -/
def env409 : Env := { envA with httpPost := .ok (respWith 409) }

/-- **C1** (corrected).  For every submission attempt (the pre-post phase
succeeded): a 409 response records the identifier and returns `None` (a
no-op, no error); a 4xx/5xx response other than 409 raises and does not
record; any other response — the 2xx successes, but also 1xx/3xx, since
`raise_for_status` only raises for 4xx/5xx — records the identifier and
returns `'ok'`.  The claim said *any* non-2xx non-409 status raises, which
fails at status 300 (see the counterexample).  In every execution the
store is written only after the remote call. -/
theorem claim_C1 :
    (∀ env md5 now apiKey url seen gets payload parts rsp,
       md5 url ∉ seen →
       prePost env md5 now apiKey url = (gets, .ok (payload, parts)) →
       env.httpPost = .ok rsp →
       ((rsp.status_code = 409 →
          push_article env md5 now apiKey url seen =
            (gets.map Event.httpGet ++
              [Event.httpPost payload parts, Event.savePosted (md5 url)],
             .ok none)) ∧
        (rsp.status_code ≠ 409 → 400 ≤ rsp.status_code → rsp.status_code < 600 →
          push_article env md5 now apiKey url seen =
            (gets.map Event.httpGet ++ [Event.httpPost payload parts],
             .error (.httpError rsp.status_code))) ∧
        (rsp.status_code ≠ 409 →
         ¬(400 ≤ rsp.status_code ∧ rsp.status_code < 600) →
          push_article env md5 now apiKey url seen =
            (gets.map Event.httpGet ++
              [Event.httpPost payload parts, Event.savePosted (md5 url)],
             .ok (some "ok"))))) ∧
    (∀ env md5 now apiKey url seen,
       savedAfterPost (push_article env md5 now apiKey url seen).1) := by
  constructor
  · intro env md5 now apiKey url seen gets payload parts rsp hseen hpre hpost
    refine ⟨?_, ?_, ?_⟩
    · intro h409
      simp [push_article, hseen, hpre, hpost, h409]
    · intro h409 h4 h6
      simp [push_article, hseen, hpre, hpost, h409, raisesForStatus, h4, h6]
    · intro h409 hnr
      have hns : ¬ raisesForStatus rsp.status_code := by
        intro hc
        unfold raisesForStatus at hc
        exact hnr hc
      simp [push_article, hseen, hpre, hpost, h409, hns]
  · intro env md5 now apiKey url seen
    unfold push_article
    dsimp only
    split
    · exact savedAfterPostOfNoSave []
        (by intro e he; exact absurd he (List.not_mem_nil e))
    · split
      · exact savedAfterPostOfNoSave _ (noSaveInGets _)
      · split
        · exact savedAfterPostAppend _ _ _ [] (noSaveInGets _)
        · split
          · rw [List.append_assoc]
            exact savedAfterPostAppend _ _ _ _ (noSaveInGets _)
          · split
            · exact savedAfterPostAppend _ _ _ [] (noSaveInGets _)
            · rw [List.append_assoc]
              exact savedAfterPostAppend _ _ _ _ (noSaveInGets _)

/-- Counterexample to C1 as stated: a `300` response is not 2xx and not
409, yet `push_article` raises nothing and records the identifier — the
code only raises for 4xx/5xx. -/
theorem claim_C1_cex :
    env300.httpPost = .ok (respWith 300) ∧
    ¬(200 ≤ (respWith 300).status_code ∧ (respWith 300).status_code ≤ 299) ∧
    (respWith 300).status_code ≠ 409 ∧
    push_article env300 md5id nowA "KEY" urlA [] =
      ([Event.httpGet urlA, Event.httpGet restA, Event.httpPost payloadA [],
        Event.savePosted urlA], .ok (some "ok")) := by decide

/-- Witness for C1: the 409 branch at the concrete world. -/
theorem claim_C1_witness :
    push_article env409 md5id nowA "KEY" urlA [] =
      ([urlA, restA].map Event.httpGet ++
        [Event.httpPost payloadA [], Event.savePosted (md5id urlA)], .ok none) :=
  (claim_C1.1 env409 md5id nowA "KEY" urlA [] [urlA, restA] payloadA []
      (respWith 409) (by decide) (by decide) rfl).1 (by decide)

/-! ### C4 — the in-memory seen set during a run -/

/-- **C4** (corrected).  The in-memory seen set decides skipping — an
identifier in the loaded set short-circuits before any network call — but
`push_article` never adds to it (`save_posted` appends to the file only),
so any entry whose identifier is *not* in the set loaded at run start is
fetched over the network, even when an earlier entry of the same run just
recorded that identifier.  The claim's "later feed entry with the same URL
in the same run is skipped without a network fetch" fails — see the
counterexample. -/
theorem claim_C4 :
    (∀ env md5 now apiKey url seen, md5 url ∈ seen →
       push_article env md5 now apiKey url seen = ([], .ok none)) ∧
    (∀ env md5 now apiKey url seen, md5 url ∉ seen →
       Event.httpGet url ∈ (push_article env md5 now apiKey url seen).1) := by
  constructor
  · intro env md5 now apiKey url seen h
    simp [push_article, h]
  · intro env md5 now apiKey url seen h
    rcases prePostGetsHead env md5 now apiKey url with ⟨rest, hg⟩
    rcases hp : prePost env md5 now apiKey url with ⟨gets, res⟩
    rw [hp] at hg
    simp only at hg
    subst hg
    unfold push_article
    dsimp only
    rw [if_neg h, hp]
    cases res with
    | error e => simp
    | ok pr =>
      rcases pr with ⟨payload, parts⟩
      dsimp only
      rcases hq : env.httpPost with e | rsp
      · simp
      · repeat' split
        all_goals simp

/-- A feed whose two entries share one URL. -/
def twoDupEntries : List (String × Env) := [(urlA, envA), (urlA, envA)]

/-- Counterexample to C4 as stated: after the first entry is pushed and its
identifier recorded (`savePosted` in the trace), the second entry with the
same URL is *not* skipped — it is fetched over the network again and pushed
again (two full `httpGet`/`httpPost` rounds in the trace, the URL twice in
the success list). -/
theorem claim_C4_cex :
    (process_rss md5id nowA "KEY" twoDupEntries []).1.success = [urlA, urlA] ∧
    (process_rss md5id nowA "KEY" twoDupEntries []).2 =
      [Event.httpGet urlA, Event.httpGet restA, Event.httpPost payloadA [],
       Event.savePosted urlA,
       Event.httpGet urlA, Event.httpGet restA, Event.httpPost payloadA [],
       Event.savePosted urlA] := by decide

/-- Witness for C4: a preloaded identifier is skipped with no events. -/
theorem claim_C4_witness :
    push_article envA md5id nowA "KEY" urlA [md5id urlA] = ([], .ok none) :=
  claim_C4.1 envA md5id nowA "KEY" urlA [md5id urlA] (by decide)

/-! ### C3 — fetch failures of the page and the JSON endpoint -/

/-- A response with status `s`, body `x`, and no content-type header. -/
def respNoCT (s : Nat) : Response :=
  { status_code := s, text := "x", headersContentType := none, content := [] }

/-- The baseline world whose structured-content endpoint answers with
status `s` (and a parseable body). -/
def envC3 (s : Nat) : Env :=
  { envA with httpGet := fun u =>
      if u = restA then .ok (respNoCT s) else .ok (respOk "x") }

/-- The baseline world whose article-page fetch answers 300. -/
def envP300 : Env :=
  { envA with httpGet := fun u =>
      if u = urlA then .ok (respWith 300) else .ok (respOk "x") }

/-- The baseline world whose article-page fetch answers 404. -/
def envPage404 : Env := { envA with httpGet := fun _ => .ok (respWith 404) }

/-- **C3** (corrected).  A 4xx/5xx article-page fetch raises immediately
(first conjunct: the pipeline dies after the one GET, with the fetch
error).  The structured-content endpoint's HTTP status, however, is never
checked — line 110 reads `.text` without `raise_for_status()` — so the
pipeline's result is literally independent of that status (third
conjunct: the whole run is invariant as the endpoint status `s` ranges
over everything; the second conjunct pins down that `s` really is that
response's status). -/
theorem claim_C3 :
    (∀ env md5 now apiKey url seen rsp,
       md5 url ∉ seen → env.httpGet url = .ok rsp →
       400 ≤ rsp.status_code → rsp.status_code < 600 →
       push_article env md5 now apiKey url seen =
         ([Event.httpGet url], .error (.httpError rsp.status_code))) ∧
    (∀ s : Nat, (envC3 s).httpGet restA = .ok (respNoCT s)) ∧
    (∀ s : Nat, push_article (envC3 s) md5id nowA "KEY" urlA [] =
       push_article (envC3 0) md5id nowA "KEY" urlA []) := by
  refine ⟨?_, fun s => rfl, fun s => rfl⟩
  intro env md5 now apiKey url seen rsp hseen hget h4 h6
  simp [push_article, hseen, prePost, hget, raisesForStatus, h4, h6]

/-- Counterexample to C3 as stated: a 404 from the structured-content
endpoint does *not* fail the pipeline — the run completes and publishes;
likewise a 300 (non-2xx) page response proceeds, since `raise_for_status`
only raises for 4xx/5xx. -/
theorem claim_C3_cex :
    ((envC3 404).httpGet restA = .ok (respNoCT 404) ∧
     (push_article (envC3 404) md5id nowA "KEY" urlA []).2 = .ok (some "ok")) ∧
    (envP300.httpGet urlA = .ok (respWith 300) ∧
     ¬(200 ≤ (respWith 300).status_code ∧ (respWith 300).status_code ≤ 299) ∧
     (push_article envP300 md5id nowA "KEY" urlA []).2 = .ok (some "ok")) := by
  decide

/-- Witness for C3: a 404 page fetch fails the pipeline with the fetch
error. -/
theorem claim_C3_witness :
    push_article envPage404 md5id nowA "KEY" urlA [] =
      ([Event.httpGet urlA], .error (.httpError 404)) :=
  claim_C3.1 envPage404 md5id nowA "KEY" urlA [] (respWith 404)
    (by decide) rfl (by decide) (by decide)

/-! ### C2 — the first-image cover fallback -/

/-- A body with no Open Graph image whose single image sits inside a
paragraph. -/
def rootC2 : HNode :=
  .elem "div" [] [.elem "p" [] [.elem "img" [("src", "https://e/a.jpg")] []]]

/-- The baseline world rendering `rootC2` (its page has `ogImage = ""`). -/
def envC2 : Env := { envA with htmlFromString := fun _ => .ok rootC2 }

/-- The payload produced for `rootC2`: the cleaned image is restored into
the paragraph, but no cover accompanies it. -/
def payloadC2 : Payload :=
  { payloadA with content :=
      "<p style=\"text-align: justify;\"><span><img src=\"https://e/a.jpg\" style=\"width:100%;\"></span></p>" ++
        attribution urlA "T" }

set_option maxRecDepth 4000 in
/-- **C2** (code bug).  The body's first image is
`https://e/a.jpg` (second conjunct, by the spec's own reading), the page
has no Open Graph image (first conjunct), yet normalization records *no*
cover fallback (`first_img` ends as Python `None`, third conjunct): line
122 clears the image's attributes *before* line 123 reads
`img.get('src')`, so the read always yields `None` for in-paragraph
images.  End to end (fourth conjunct) the submission goes out with no
cover fetch and no `pic` part — the trace holds just the two fetches and a
coverless post. -/
theorem claim_C2 :
    pageA.ogImage = "" ∧
    specFirstImageSrc rootC2 = some "https://e/a.jpg" ∧
    normalize rootC2 =
      .ok (["<p style=\"text-align: justify;\"><span><img src=\"https://e/a.jpg\" style=\"width:100%;\"></span></p>"],
        none) ∧
    push_article envC2 md5id nowA "KEY" urlA [] =
      ([Event.httpGet urlA, Event.httpGet restA, Event.httpPost payloadC2 [],
        Event.savePosted urlA], .ok (some "ok")) := by
  decide

/-! ### C10 — images without a `src` attribute -/

lemma cleanOkSrc (a : List (String × String)) (t : String) (s : String)
    (h : clean_img_html a t = .ok s) : attrLookup a "src" ≠ none := by
  intro hnone
  unfold clean_img_html at h
  rw [hnone] at h
  by_cases hw : isWsOnly t = false
  · rw [if_pos hw] at h; exact absurd h (by simp)
  · rw [if_neg hw] at h; exact absurd h (by simp)

lemma cleanAllOk (l : List (List (String × String) × String)) :
    ∀ out, cleanAll l = .ok out →
      ∀ pr ∈ l, ∃ s, clean_img_html pr.1 pr.2 = .ok s := by
  induction l with
  | nil => intro out _ pr hpr; exact absurd hpr (List.not_mem_nil pr)
  | cons hd tl ih =>
    intro out h pr hpr
    rcases hd with ⟨a, t⟩
    unfold cleanAll at h
    rcases hc : clean_img_html a t with e | s
    · rw [hc] at h; exact absurd h (by simp)
    · rw [hc] at h
      rcases hr : cleanAll tl with e2 | l2
      · rw [hr] at h; exact absurd h (by simp)
      · rw [hr] at h
        rcases List.mem_cons.mp hpr with rfl | htl
        · exact ⟨s, hc⟩
        · exact ih l2 hr pr htl

lemma processPOk (n : Nat) (pa : List (String × String)) (cs : List HNode)
    (ptl : String) :
    ∀ h, processP n pa cs ptl = .ok h →
      ∀ pr ∈ imgsList cs, ∃ s, clean_img_html pr.1 pr.2 = .ok s := by
  intro h hp pr hpr
  unfold processP at hp
  dsimp only at hp
  rcases hc : cleanAll (imgsList cs) with e | cleaned
  · rw [hc] at hp; exact absurd hp (by simp)
  · exact cleanAllOk (imgsList cs) cleaned hc pr hpr

lemma runPsOk (ps : List (HNode × String)) :
    ∀ segs fi out, runPs ps segs fi = .ok out →
      ∀ pt ∈ ps, skipP pt.1.childrenL = false →
        ∀ pr ∈ imgsList pt.1.childrenL, ∃ s, clean_img_html pr.1 pr.2 = .ok s := by
  induction ps with
  | nil => intro segs fi out _ pt hpt; exact absurd hpt (List.not_mem_nil pt)
  | cons hd tl ih =>
    intro segs fi out h pt hpt hskip pr hpr
    rcases hd with ⟨p, ptl⟩
    unfold runPs at h
    by_cases hs : skipP p.childrenL
    · rw [if_pos hs] at h
      rcases List.mem_cons.mp hpt with rfl | htl
      · rw [hskip] at hs; exact absurd hs (by simp)
      · exact ih segs fi out h pt htl hskip pr hpr
    · rw [if_neg hs] at h
      rcases hpp : processP segs.length (pAttrsOf p) p.childrenL ptl with e | hseg
      · rw [hpp] at h; exact absurd h (by simp)
      · rw [hpp] at h
        rcases List.mem_cons.mp hpt with rfl | htl
        · exact processPOk _ _ _ _ hseg hpp pr hpr
        · exact ih _ _ out h pt htl hskip pr hpr

lemma runOutOk (l : List (List (String × String) × String)) :
    ∀ segs fi out, runOut l segs fi = .ok out →
      ∀ pr ∈ l, ∃ s, clean_img_html pr.1 pr.2 = .ok s := by
  induction l with
  | nil => intro segs fi out _ pr hpr; exact absurd hpr (List.not_mem_nil pr)
  | cons hd tl ih =>
    intro segs fi out h pr hpr
    rcases hd with ⟨a, t⟩
    unfold runOut at h
    rcases hc : clean_img_html a t with e | ih2
    · rw [hc] at h; exact absurd h (by simp)
    · rw [hc] at h
      rcases List.mem_cons.mp hpr with rfl | htl
      · exact ⟨ih2, hc⟩
      · exact ih _ _ out h pr htl

/-- A body whose `src`-less image is directly inside a paragraph, so it is
processed. -/
def rootC10b : HNode := .elem "div" [] [.elem "p" [] [.elem "img" [] []]]

/-- **C10** (corrected).  A processed `src`-less image aborts normalization
with the `TypeError` from `t.set('src', None)` (first conjunct, concretely
on `rootC10b`); conversely, if normalization of a body completes, then
every *processed* image — any image of a non-skipped paragraph or outside
all paragraphs — has a `src` attribute (second conjunct).  The claim's
"the pipeline only completes for bodies in which every image has a src
attribute" is too strong: a `src`-less image inside a skipped link-wrapped
paragraph is never passed to `clean_img_html`, and the pipeline completes —
see the counterexample. -/
theorem claim_C10 :
    normalize rootC10b =
      .error (.typeError "Argument must be bytes or unicode, got NoneType") ∧
    ∀ root segs fi, normalize root = .ok (segs, fi) →
      ∀ pr ∈ processedImgs root, attrLookup pr.1 "src" ≠ none := by
  refine ⟨by decide, ?_⟩
  intro root segs fi h pr hpr
  unfold normalize at h
  rcases hps : runPs (psOf root) [] (some "") with e | pr2
  · rw [hps] at h; exact absurd h (by simp)
  · rw [hps] at h
    unfold processedImgs at hpr
    rcases List.mem_append.mp hpr with hin | hout
    · rcases List.mem_flatMap.mp hin with ⟨pt, hptmem, hprmem⟩
      rcases List.mem_filter.mp hptmem with ⟨hptps, hnskip⟩
      have hskip : skipP pt.1.childrenL = false := by
        revert hnskip
        cases skipP pt.1.childrenL <;> simp
      rcases runPsOk (psOf root) [] (some "") pr2 hps pt hptps hskip pr hprmem with
        ⟨s, hcl⟩
      exact cleanOkSrc _ _ s hcl
    · rcases runOutOk (imgsNoP root) pr2.1 pr2.2 (segs, fi) h pr hout with ⟨s, hcl⟩
      exact cleanOkSrc _ _ s hcl

/-- A body whose only image has no `src` and sits inside a paragraph that
is a single link wrapping the image — the skip pattern of line 116. -/
def rootC10 : HNode :=
  .elem "div" []
    [.elem "p" [] [.elem "a" [("href", "https://x")] [.elem "img" [] []]]]

/-- The baseline world rendering `rootC10`. -/
def envC10 : Env := { envA with htmlFromString := fun _ => .ok rootC10 }

/-- Counterexample to C10 as stated: `rootC10` contains an image with no
`src` attribute, yet normalization completes (the skip rule never cleans
that image) and the whole entry pipeline publishes. -/
theorem claim_C10_cex :
    attrLookup (pAttrsOf (.elem "img" [] [])) "src" = none ∧
    normalize rootC10 = .ok ([], some "") ∧
    (push_article envC10 md5id nowA "KEY" urlA []).2 = .ok (some "ok") := by
  decide

/-- Witness for C10: the completion direction applied to `rootC2`, whose
single processed image indeed carries a `src`. -/
theorem claim_C10_witness :
    attrLookup [("src", "https://e/a.jpg")] "src" ≠ none :=
  claim_C10.2 rootC2
    ["<p style=\"text-align: justify;\"><span><img src=\"https://e/a.jpg\" style=\"width:100%;\"></span></p>"]
    none (by decide) ([("src", "https://e/a.jpg")], "") (by decide)

/-! ### C5 — cover-fetch failure degrades to no attachment -/

/-- The concrete page with an Open Graph cover image. -/
def pageC5 : Page := { pageA with ogImage := coverA }

/-- The baseline world with a cover image whose fetch behaves as `pr`. -/
def envC5 (pr : Except PyErr Response) : Env :=
  { envA with parsePage := fun _ => .ok pageC5,
              httpGet := fun u => if u = coverA then pr else .ok (respOk "x") }

/-- A final `300` cover response carrying image bytes. -/
def pic300 : Response :=
  { status_code := 300, text := "", headersContentType := some "image/png",
    content := [9] }

/-- **C5** (corrected).  `fetch_pic` catches a raising GET (first
conjunct) and a 4xx/5xx status (second conjunct), yielding `None` — but
*only* those: for any response outside 400-599 (2xx, but also 1xx/3xx,
since `raise_for_status` raises only for 4xx/5xx) it returns the tuple
built from that response (third conjunct), so a non-2xx 3xx cover fetch
does *not* degrade to no attachment.  Fourth conjunct: whenever the cover
fetch does yield `None`, the submission still goes out — the cover GET is
in the trace (the attempt was made, and logged in the source) but the
post's file-part list is empty, the `pic` entry holding `None` being
dropped by the multipart encoding, and the push completes normally. -/
theorem claim_C5 :
    (∀ (get : String → Except PyErr Response) u e,
       get u = .error e → fetch_pic get u = none) ∧
    (∀ (get : String → Except PyErr Response) u r,
       get u = .ok r → 400 ≤ r.status_code → r.status_code < 600 →
       fetch_pic get u = none) ∧
    (∀ (get : String → Except PyErr Response) u r,
       get u = .ok r → ¬(400 ≤ r.status_code ∧ r.status_code < 600) →
       fetch_pic get u =
         some { filename := "image." ++
                  ⟨(pySplitOnChar '/'
                      (r.headersContentType.getD "image/jpeg").toList).getLastD []⟩,
                content := r.content,
                contentType := r.headersContentType }) ∧
    (∀ pr, fetch_pic (envC5 pr).httpGet coverA = none →
       push_article (envC5 pr) md5id nowA "KEY" urlA [] =
         ([Event.httpGet urlA, Event.httpGet restA, Event.httpGet coverA,
           Event.httpPost payloadA [], Event.savePosted urlA],
          .ok (some "ok"))) := by
  refine ⟨?_, ?_, ?_, ?_⟩
  · intro get u e h
    simp [fetch_pic, h]
  · intro get u r h h4 h6
    simp [fetch_pic, h, raisesForStatus, h4, h6]
  · intro get u r h hn
    have hns : ¬ raisesForStatus r.status_code := by
      intro hc
      unfold raisesForStatus at hc
      exact hn hc
    simp [fetch_pic, h, hns]
  · intro pr h
    have h2 : encodeParts (fetch_pic (envC5 pr).httpGet coverA) = [] := by
      rw [h]
      rfl
    have key : prePost (envC5 pr) md5id nowA "KEY" urlA =
        ([urlA, restA, coverA],
         .ok (payloadA, encodeParts (fetch_pic (envC5 pr).httpGet coverA))) := rfl
    unfold push_article
    dsimp only
    rw [if_neg (List.not_mem_nil _), key, h2]
    rfl

/-- Counterexample to C5 as stated: the cover fetch answers with a final
`300` — a non-2xx status, so by the claim the attachment should be absent —
yet `raise_for_status` does not fire, `fetch_pic` returns the tuple built
from that response, and the submission goes out *with* a `pic` part. -/
theorem claim_C5_cex :
    (envC5 (.ok pic300)).httpGet coverA = .ok pic300 ∧
    ¬(200 ≤ pic300.status_code ∧ pic300.status_code ≤ 299) ∧
    push_article (envC5 (.ok pic300)) md5id nowA "KEY" urlA [] =
      ([Event.httpGet urlA, Event.httpGet restA, Event.httpGet coverA,
        Event.httpPost payloadA
          [("pic", { filename := "image.png", content := [9],
                     contentType := some "image/png" })],
        Event.savePosted urlA], .ok (some "ok")) := by decide

/-- Witness for C5: a cover fetch that raises a timeout still posts,
without a `pic` part. -/
theorem claim_C5_witness :
    push_article (envC5 (.error (.requestError "timeout"))) md5id nowA "KEY"
        urlA [] =
      ([Event.httpGet urlA, Event.httpGet restA, Event.httpGet coverA,
        Event.httpPost payloadA [], Event.savePosted urlA], .ok (some "ok")) :=
  claim_C5.2.2.2 (.error (.requestError "timeout"))
    (claim_C5.1 (envC5 (.error (.requestError "timeout"))).httpGet coverA
      (.requestError "timeout") rfl)

/-! ### C6 — per-entry failure isolation in `process_rss` -/

lemma rssShift (md5 : String → String) (now apiKey : String)
    (seen : List String) (entries : List (String × Env)) :
    ∀ acc : RunResults × List Event,
      entries.foldl (rssStep md5 now apiKey seen) acc =
        ({ success := acc.1.success ++
             (process_rss md5 now apiKey entries seen).1.success,
           failed := acc.1.failed ++
             (process_rss md5 now apiKey entries seen).1.failed },
         acc.2 ++ (process_rss md5 now apiKey entries seen).2) := by
  induction entries with
  | nil =>
    intro acc
    simp [process_rss]
  | cons e tl ih =>
    intro acc
    rw [List.foldl_cons]
    rw [ih (rssStep md5 now apiKey seen acc e)]
    have hrhs : process_rss md5 now apiKey (e :: tl) seen =
        tl.foldl (rssStep md5 now apiKey seen)
          (rssStep md5 now apiKey seen ({ success := [], failed := [] }, []) e) := by
      rw [process_rss, List.foldl_cons]
    rw [hrhs,
      ih (rssStep md5 now apiKey seen ({ success := [], failed := [] }, []) e)]
    rcases hp : push_article e.2 md5 now apiKey e.1 seen with ⟨tr, res⟩
    cases res with
    | ok r =>
      simp [rssStep, hp, List.append_assoc]
    | error err =>
      simp [rssStep, hp, List.append_assoc]

/-- **C6** (confirmed).  An entry whose pipeline raises is caught at the
entry boundary: it contributes exactly its `(url, message)` record to the
failure list, and the results of the entries before and after it are
exactly what they would be on their own — the exception aborts neither the
earlier nor the later entries. -/
theorem claim_C6 :
    ∀ md5 now apiKey (seen : List String) (xs ys : List (String × Env))
      link env err,
      (push_article env md5 now apiKey link seen).2 = .error err →
      (process_rss md5 now apiKey (xs ++ (link, env) :: ys) seen).1.success =
          (process_rss md5 now apiKey xs seen).1.success ++
            (process_rss md5 now apiKey ys seen).1.success ∧
      (process_rss md5 now apiKey (xs ++ (link, env) :: ys) seen).1.failed =
          (process_rss md5 now apiKey xs seen).1.failed ++
            (link, err.message) ::
              (process_rss md5 now apiKey ys seen).1.failed := by
  intro md5 now apiKey seen xs ys link env err herr
  rcases hp : push_article env md5 now apiKey link seen with ⟨tr, res⟩
  rw [hp] at herr
  dsimp only at herr
  subst herr
  have hfold : process_rss md5 now apiKey (xs ++ (link, env) :: ys) seen =
      ((link, env) :: ys).foldl (rssStep md5 now apiKey seen)
        (process_rss md5 now apiKey xs seen) := by
    rw [process_rss, List.foldl_append]
    rfl
  have hstep : rssStep md5 now apiKey seen
      (process_rss md5 now apiKey xs seen) (link, env) =
      ({ success := (process_rss md5 now apiKey xs seen).1.success,
         failed := (process_rss md5 now apiKey xs seen).1.failed ++
           [(link, err.message)] },
       (process_rss md5 now apiKey xs seen).2 ++ tr) := by
    simp [rssStep, hp]
  rw [hfold, List.foldl_cons, hstep, rssShift]
  constructor
  · simp
  · simp

/-- A feed link whose page fetch four-oh-fours in `envPage404`. -/
def linkBad : String := "https://e/bad"

/-- Witness for C6: a three-entry feed whose middle entry's page fetch
fails with 404 — the outer entries' results are untouched and the failure
is recorded in place. -/
theorem claim_C6_witness :
    (process_rss md5id nowA "KEY"
        ([(urlA, envA)] ++ (linkBad, envPage404) :: [(urlA, envA)]) []).1.success =
        (process_rss md5id nowA "KEY" [(urlA, envA)] []).1.success ++
          (process_rss md5id nowA "KEY" [(urlA, envA)] []).1.success ∧
    (process_rss md5id nowA "KEY"
        ([(urlA, envA)] ++ (linkBad, envPage404) :: [(urlA, envA)]) []).1.failed =
        (process_rss md5id nowA "KEY" [(urlA, envA)] []).1.failed ++
          (linkBad, (PyErr.httpError 404).message) ::
            (process_rss md5id nowA "KEY" [(urlA, envA)] []).1.failed :=
  claim_C6 md5id nowA "KEY" [] [(urlA, envA)] [(urlA, envA)] linkBad envPage404
    (.httpError 404) (by decide)

end Woo
